import Mathlib

/-!
Verification of the bytebuf buffer core.

The repository ships the `ByteBuf` implementation as a precompiled native
module (`bytebuf.<platform>-<arch>.node`) selected at load time by `index.js`;
the implementation itself is not present in the source tree.  The buffer's
state, operations and error taxonomy are therefore modelled here from the
specification, with the observable behaviour pinned down by the repository's
test suite (construction, capacity, cursor setters, `readByte`, `readBoolean`,
underflow messages, and the `InvalidArg` error code).
-/

/-- Modelled from the spec: the ByteBuf entity (the native implementation is
missing from the source tree).  `storage` is the owned contiguous byte region,
its length is the capacity; `readerIndex` and `writerIndex` are the two
cursors. -/
structure ByteBuf where
  storage : List (Fin 256)
  readerIndex : Nat
  writerIndex : Nat
deriving Repr, DecidableEq

/-- Modelled from the spec: the two error kinds of the error taxonomy —
`InvalidArgument` for cursor/capacity mutations violating the structural
invariants, and `Underflow`/`Overflow` for bounds violations on reads/writes,
the latter carrying an operation-specific message. -/
inductive BufError where
  | invalidArg : BufError
  | underflow (message : String) : BufError
  | overflow (message : String) : BufError
deriving Repr, DecidableEq

/-- Modelled from the spec and the test suite: the machine-readable code
carried by an error.  The tests observe code `InvalidArg` on every
InvalidArgument failure; the codes of underflow/overflow errors are not
observable and are left unspecified. -/
def BufError.code : BufError → Option String
  | .invalidArg => some "InvalidArg"
  | _ => none

/-- Modelled from the spec: construct an empty buffer — capacity 0, both
cursors 0. -/
def ByteBuf.empty : ByteBuf := ⟨[], 0, 0⟩

/-- Modelled from the spec: construct a buffer wrapping a caller-supplied byte
region of length L — capacity L, `readerIndex` 0, `writerIndex` L (the
supplied bytes are treated as already written, fully readable). -/
def ByteBuf.fromBytes (s : List (Fin 256)) : ByteBuf := ⟨s, 0, s.length⟩

/-- Modelled from the spec: `getCapacity` returns the total allocated byte
length of the storage. -/
def ByteBuf.getCapacity (b : ByteBuf) : Nat := b.storage.length

/-- Modelled from the spec: derived quantity `writerIndex - readerIndex`. -/
def ByteBuf.readableBytes (b : ByteBuf) : Nat := b.writerIndex - b.readerIndex

/-- Modelled from the spec: derived quantity `capacity - writerIndex`. -/
def ByteBuf.writableBytes (b : ByteBuf) : Nat := b.getCapacity - b.writerIndex

/-- Modelled from the spec: `isReadable(n)` is true iff `readableBytes ≥ n`.
The native API defaults `n` to 1; callers here pass it explicitly. -/
def ByteBuf.isReadable (b : ByteBuf) (n : Nat) : Bool := n ≤ b.readableBytes

/-- Modelled from the spec: `isWriteable(n)` is true iff `writableBytes ≥ n`.
The native API defaults `n` to 1; callers here pass it explicitly. -/
def ByteBuf.isWriteable (b : ByteBuf) (n : Nat) : Bool := n ≤ b.writableBytes

/-- Modelled from the spec: `getArray` returns a snapshot of the buffer's
contents.  The exact exposed range is an open design choice in the spec (only
the empty case is observable in the tests), so the full backing region is
returned here. -/
def ByteBuf.getArray (b : ByteBuf) : List (Fin 256) := b.storage

/-- Modelled from the spec: `setReaderIndex i` sets `readerIndex = i`, failing
with `InvalidArgument` (state unchanged) if `i > writerIndex`.  Each mutator
returns the operation result together with the post-call state, which equals
the pre-call state on failure. -/
def ByteBuf.setReaderIndex (b : ByteBuf) (i : Nat) :
    Except BufError Unit × ByteBuf :=
  if i > b.writerIndex then (.error .invalidArg, b)
  else (.ok (), { b with readerIndex := i })

/-- Modelled from the spec: `setWriterIndex i` sets `writerIndex = i`, failing
with `InvalidArgument` (state unchanged) if `i > capacity` or
`i < readerIndex`. -/
def ByteBuf.setWriterIndex (b : ByteBuf) (i : Nat) :
    Except BufError Unit × ByteBuf :=
  if i > b.getCapacity ∨ i < b.readerIndex then (.error .invalidArg, b)
  else (.ok (), { b with writerIndex := i })

/-- Modelled from the spec: `setIndex r w` atomically sets both cursors,
failing with `InvalidArgument` if `r > w` or `w > capacity`; on failure
neither cursor is modified. -/
def ByteBuf.setIndex (b : ByteBuf) (r w : Nat) :
    Except BufError Unit × ByteBuf :=
  if r > w ∨ w > b.getCapacity then (.error .invalidArg, b)
  else (.ok (), { b with readerIndex := r, writerIndex := w })

/-- Modelled from the spec: `setCapacity n` replaces the storage with a region
of exactly `n` bytes — existing bytes are kept up to `n`, newly added bytes are
zero-initialized — and clamps `writerIndex`/`readerIndex` so that
`readerIndex ≤ writerIndex ≤ n` is preserved.  The negative-`n` failure case is
omitted: the index type here is inherently unsigned, as the spec allows. -/
def ByteBuf.setCapacity (b : ByteBuf) (n : Nat) :
    Except BufError Unit × ByteBuf :=
  let st := b.storage.take n ++ List.replicate (n - b.storage.length) (0 : Fin 256)
  let w := min b.writerIndex n
  (.ok (), ⟨st, min b.readerIndex w, w⟩)

/-- Modelled from the spec: reinterpret a raw unsigned byte as a two's
complement signed 8-bit integer in the range -128..127. -/
def toSigned8 (v : Fin 256) : Int :=
  if v.val ≤ 127 then (v.val : Int) else (v.val : Int) - 256

/-- Modelled from the spec: the two's complement single-byte encoding of a
signed integer. -/
def byteOfInt (v : Int) : Fin 256 :=
  ⟨(v % 256).toNat, by
    have h1 : v % 256 < 256 := Int.emod_lt_of_pos v (by norm_num)
    have h2 : 0 ≤ v % 256 := Int.emod_nonneg v (by norm_num)
    omega⟩

/-- Modelled from the spec: `readByte` consumes one byte at `readerIndex`,
advances `readerIndex` by 1 and returns the byte reinterpreted as signed; it
fails with an `Underflow` error carrying the message
`cannot readByte, readableBytes is less than 1` (the exact message observed by
the test suite), leaving the cursors unmodified, when `readableBytes < 1`. -/
def ByteBuf.readByte (b : ByteBuf) : Except BufError Int × ByteBuf :=
  if b.readableBytes < 1 then
    (.error (.underflow "cannot readByte, readableBytes is less than 1"), b)
  else
    match b.storage[b.readerIndex]? with
    | some raw => (.ok (toSigned8 raw), { b with readerIndex := b.readerIndex + 1 })
    | none => (.error (.underflow "cannot readByte, readableBytes is less than 1"), b)

/-- Modelled from the spec: `readBoolean` consumes one byte and returns `false`
iff the raw byte is 0, `true` for every other value; underflow behaviour is as
for `readByte`, with the message observed by the test suite. -/
def ByteBuf.readBoolean (b : ByteBuf) : Except BufError Bool × ByteBuf :=
  if b.readableBytes < 1 then
    (.error (.underflow "cannot readBoolean, readableBytes is less than 1"), b)
  else
    match b.storage[b.readerIndex]? with
    | some raw => (.ok (decide (raw.val ≠ 0)), { b with readerIndex := b.readerIndex + 1 })
    | none => (.error (.underflow "cannot readBoolean, readableBytes is less than 1"), b)

/-- Modelled from the spec: `writeByte` places the two's complement encoding of
a signed byte at `writerIndex` and advances `writerIndex` by 1; it fails with an
`Overflow`-class error, leaving state unmodified, when `writableBytes < 1` (no
implicit growth). -/
def ByteBuf.writeByte (b : ByteBuf) (v : Int) : Except BufError Unit × ByteBuf :=
  if b.writableBytes < 1 then
    (.error (.overflow "cannot writeByte, writableBytes is less than 1"), b)
  else
    (.ok (), { b with storage := b.storage.set b.writerIndex (byteOfInt v),
                      writerIndex := b.writerIndex + 1 })

/-- The structural invariant of the data model:
`0 ≤ readerIndex ≤ writerIndex ≤ capacity` (the lower bound is inherent in the
unsigned index type). -/
def ByteBuf.Inv (b : ByteBuf) : Prop :=
  b.readerIndex ≤ b.writerIndex ∧ b.writerIndex ≤ b.getCapacity

instance (b : ByteBuf) : Decidable b.Inv := by
  unfold ByteBuf.Inv; infer_instance

/-- The buffer states reachable through the public surface: the two
constructors followed by any sequence of public operations, taking the
post-call state whether the call succeeded or failed. -/
inductive Reachable : ByteBuf → Prop where
  | empty : Reachable ByteBuf.empty
  | fromBytes (s : List (Fin 256)) : Reachable (ByteBuf.fromBytes s)
  | setCapacity (b : ByteBuf) (n : Nat) : Reachable b → Reachable (b.setCapacity n).2
  | setReaderIndex (b : ByteBuf) (i : Nat) : Reachable b → Reachable (b.setReaderIndex i).2
  | setWriterIndex (b : ByteBuf) (i : Nat) : Reachable b → Reachable (b.setWriterIndex i).2
  | setIndex (b : ByteBuf) (r w : Nat) : Reachable b → Reachable (b.setIndex r w).2
  | readByte (b : ByteBuf) : Reachable b → Reachable b.readByte.2
  | readBoolean (b : ByteBuf) : Reachable b → Reachable b.readBoolean.2
  | writeByte (b : ByteBuf) (v : Int) : Reachable b → Reachable (b.writeByte v).2

/-- C1: every reachable buffer state satisfies the structural invariant
`0 ≤ readerIndex ≤ writerIndex ≤ capacity`.  Since the post-call state of every
public operation (`setCapacity`, `setReaderIndex`, `setWriterIndex`,
`setIndex`, `readByte`, `readBoolean`, and the fixed-width write family),
whether the call succeeds or fails, is itself reachable, every public
operation preserves the invariant. -/
theorem spec_c1_invariant (b : ByteBuf) (h : Reachable b) : b.Inv := by
  induction h with
  | empty => exact ⟨Nat.le_refl _, Nat.le_refl _⟩
  | fromBytes s =>
      simp [ByteBuf.fromBytes, ByteBuf.Inv, ByteBuf.getCapacity]
  | setCapacity b n _ _ =>
      simp only [ByteBuf.setCapacity, ByteBuf.Inv, ByteBuf.getCapacity,
        List.length_append, List.length_take, List.length_replicate]
      omega
  | setReaderIndex b i _ ih =>
      obtain ⟨h1, h2⟩ := ih
      simp only [ByteBuf.setReaderIndex]
      split
      · exact ⟨h1, h2⟩
      · exact ⟨by dsimp only; omega, h2⟩
  | setWriterIndex b i _ ih =>
      obtain ⟨h1, h2⟩ := ih
      simp only [ByteBuf.setWriterIndex]
      split
      · exact ⟨h1, h2⟩
      · next hcond =>
          push_neg at hcond
          exact ⟨hcond.2, hcond.1⟩
  | setIndex b r w _ ih =>
      obtain ⟨h1, h2⟩ := ih
      simp only [ByteBuf.setIndex]
      split
      · exact ⟨h1, h2⟩
      · next hcond =>
          push_neg at hcond
          exact ⟨hcond.1, hcond.2⟩
  | readByte b _ ih =>
      obtain ⟨h1, h2⟩ := ih
      simp only [ByteBuf.readByte, ByteBuf.readableBytes]
      split
      · exact ⟨h1, h2⟩
      · next hcond =>
          split
          · exact ⟨by dsimp only; omega, h2⟩
          · exact ⟨h1, h2⟩
  | readBoolean b _ ih =>
      obtain ⟨h1, h2⟩ := ih
      simp only [ByteBuf.readBoolean, ByteBuf.readableBytes]
      split
      · exact ⟨h1, h2⟩
      · next hcond =>
          split
          · exact ⟨by dsimp only; omega, h2⟩
          · exact ⟨h1, h2⟩
  | writeByte b v _ ih =>
      obtain ⟨h1, h2⟩ := ih
      simp only [ByteBuf.writeByte, ByteBuf.writableBytes, ByteBuf.getCapacity]
      split
      · exact ⟨h1, h2⟩
      · next hcond =>
          refine ⟨by dsimp only; omega, ?_⟩
          dsimp only
          simp only [ByteBuf.getCapacity, List.length_set]
          omega

/-- C1 witness: the invariant theorem applied to a concrete reachable state. -/
theorem spec_c1_invariant_witness :
    Reachable ByteBuf.empty ∧ ByteBuf.empty.Inv :=
  ⟨Reachable.empty, spec_c1_invariant ByteBuf.empty Reachable.empty⟩

/-- C2: on a buffer with `readableBytes < 1`, `readByte` and `readBoolean`
fail with an Underflow-class error (a different constructor than
InvalidArgument) carrying exactly the messages
`cannot readByte, readableBytes is less than 1` and
`cannot readBoolean, readableBytes is less than 1`, and both cursors are
unchanged by the failing call; on a single-byte buffer `readByte` succeeds
exactly once and the second call fails this way. -/
theorem spec_c2_underflow (b : ByteBuf) (h : b.readableBytes < 1) :
    b.readByte =
      (.error (.underflow "cannot readByte, readableBytes is less than 1"), b) ∧
    b.readBoolean =
      (.error (.underflow "cannot readBoolean, readableBytes is less than 1"), b) ∧
    BufError.underflow "cannot readByte, readableBytes is less than 1" ≠
      BufError.invalidArg ∧
    ∀ raw : Fin 256,
      (ByteBuf.fromBytes [raw]).readByte.1 = .ok (toSigned8 raw) ∧
      (ByteBuf.fromBytes [raw]).readByte.2.readByte =
        (.error (.underflow "cannot readByte, readableBytes is less than 1"),
         (ByteBuf.fromBytes [raw]).readByte.2) := by
  refine ⟨by simp [ByteBuf.readByte, h], by simp [ByteBuf.readBoolean, h],
    by simp, ?_⟩
  intro raw
  constructor
  · simp [ByteBuf.fromBytes, ByteBuf.readByte, ByteBuf.readableBytes]
  · simp [ByteBuf.fromBytes, ByteBuf.readByte, ByteBuf.readableBytes]

/-- C2 witness: the underflow theorem applied to the empty buffer. -/
theorem spec_c2_underflow_witness :
    ByteBuf.empty.readableBytes < 1 ∧
    ByteBuf.empty.readByte =
      (.error (.underflow "cannot readByte, readableBytes is less than 1"),
       ByteBuf.empty) :=
  ⟨by decide, (spec_c2_underflow ByteBuf.empty (by decide)).1⟩

/-- C3: `setIndex r w` is all-or-nothing: if `r > w` or `w > capacity` it
fails with InvalidArgument and both cursors keep their prior values; otherwise
both cursors are set to `r` and `w`. -/
theorem spec_c3_setIndex_atomic (b : ByteBuf) (r w : Nat) :
    (r > w ∨ w > b.getCapacity → b.setIndex r w = (.error .invalidArg, b)) ∧
    (r ≤ w → w ≤ b.getCapacity →
      b.setIndex r w = (.ok (), { b with readerIndex := r, writerIndex := w })) := by
  constructor
  · intro h
    simp [ByteBuf.setIndex, h]
  · intro h1 h2
    have hc : ¬(r > w ∨ w > b.getCapacity) := by omega
    simp [ByteBuf.setIndex, hc]

/-- C3 witness: the spec's concrete scenario — after setting indices (2,4) on
an 8-byte buffer, `setIndex 4 2` fails and leaves the state unchanged. -/
theorem spec_c3_setIndex_atomic_witness :
    ((ByteBuf.fromBytes (List.replicate 8 0)).setIndex 2 4).2.setIndex 4 2 =
      (.error .invalidArg, ((ByteBuf.fromBytes (List.replicate 8 0)).setIndex 2 4).2) :=
  (spec_c3_setIndex_atomic
    ((ByteBuf.fromBytes (List.replicate 8 0)).setIndex 2 4).2 4 2).1 (by decide)

/-- C4: with at least one readable byte whose raw value is `raw`, `readByte`
consumes exactly that byte, advances `readerIndex` by 1, and returns `raw`
reinterpreted as two's complement signed: `raw` itself when `raw ≤ 127` and
`raw - 256` otherwise; in particular raw `0x7f` decodes to `127` and raw
`0x80` decodes to `-128`. -/
theorem spec_c4_readByte_signed (b : ByteBuf) (raw : Fin 256)
    (h1 : 1 ≤ b.readableBytes) (h2 : b.storage[b.readerIndex]? = some raw) :
    b.readByte =
      (.ok (if raw.val ≤ 127 then (raw.val : Int) else (raw.val : Int) - 256),
       { b with readerIndex := b.readerIndex + 1 }) ∧
    (ByteBuf.fromBytes [(0x7f : Fin 256)]).readByte.1 = .ok 127 ∧
    (ByteBuf.fromBytes [(0x80 : Fin 256)]).readByte.1 = .ok (-128) := by
  refine ⟨?_,
    by simp [ByteBuf.fromBytes, ByteBuf.readByte, ByteBuf.readableBytes, toSigned8]; decide,
    by simp [ByteBuf.fromBytes, ByteBuf.readByte, ByteBuf.readableBytes, toSigned8]; decide⟩
  simp only [ByteBuf.readByte]
  rw [if_neg (by omega), h2]
  simp [toSigned8]

/-- C4 witness: the signed-interpretation theorem applied to the one-byte
buffer holding `0x80`. -/
theorem spec_c4_readByte_signed_witness :
    1 ≤ (ByteBuf.fromBytes [(0x80 : Fin 256)]).readableBytes ∧
    (ByteBuf.fromBytes [(0x80 : Fin 256)]).readByte =
      (.ok (if (0x80 : Fin 256).val ≤ 127 then ((0x80 : Fin 256).val : Int)
            else ((0x80 : Fin 256).val : Int) - 256),
       { ByteBuf.fromBytes [(0x80 : Fin 256)] with readerIndex := 0 + 1 }) :=
  ⟨by decide,
   (spec_c4_readByte_signed (ByteBuf.fromBytes [(0x80 : Fin 256)]) 0x80
     (by decide) (by decide)).1⟩

/-- C5: the single-cursor setters reject exactly the strict invariant
violations and accept the equality boundaries: `setReaderIndex i` fails with
InvalidArgument iff `i > writerIndex`, `setWriterIndex i` fails iff
`i > capacity` or `i < readerIndex`, and a failing call leaves the state
exactly as before. -/
theorem spec_c5_cursor_setters (b : ByteBuf) (i : Nat) :
    (i > b.writerIndex → b.setReaderIndex i = (.error .invalidArg, b)) ∧
    (i ≤ b.writerIndex →
      b.setReaderIndex i = (.ok (), { b with readerIndex := i })) ∧
    (i > b.getCapacity ∨ i < b.readerIndex →
      b.setWriterIndex i = (.error .invalidArg, b)) ∧
    (i ≤ b.getCapacity → b.readerIndex ≤ i →
      b.setWriterIndex i = (.ok (), { b with writerIndex := i })) := by
  refine ⟨?_, ?_, ?_, ?_⟩
  · intro h
    simp [ByteBuf.setReaderIndex, h]
  · intro h
    have hc : ¬ i > b.writerIndex := by omega
    simp [ByteBuf.setReaderIndex, hc]
  · intro h
    simp [ByteBuf.setWriterIndex, h]
  · intro h1 h2
    have hc : ¬(i > b.getCapacity ∨ i < b.readerIndex) := by omega
    simp [ByteBuf.setWriterIndex, hc]

/-- C5 witness: the equality boundaries succeed on a one-byte fully written
buffer — `setReaderIndex` at `writerIndex` and `setWriterIndex` at
`capacity`. -/
theorem spec_c5_cursor_setters_witness :
    (ByteBuf.fromBytes [0]).setReaderIndex 1 =
      (.ok (), { ByteBuf.fromBytes [0] with readerIndex := 1 }) ∧
    (ByteBuf.fromBytes [0]).setWriterIndex 1 =
      (.ok (), { ByteBuf.fromBytes [0] with writerIndex := 1 }) :=
  ⟨(spec_c5_cursor_setters (ByteBuf.fromBytes [0]) 1).2.1 (by decide),
   (spec_c5_cursor_setters (ByteBuf.fromBytes [0]) 1).2.2.2 (by decide) (by decide)⟩

/-- C6: constructor postconditions — an empty buffer has capacity 0, a
length-0 array snapshot, both cursors 0 and is not writeable; a buffer
constructed from a byte sequence S has capacity `length S`, readerIndex 0,
writerIndex `length S`, is readable for `length S` bytes but not for
`length S + 1`. -/
theorem spec_c6_constructors :
    ByteBuf.empty.getCapacity = 0 ∧
    ByteBuf.empty.getArray.length = 0 ∧
    ByteBuf.empty.readerIndex = 0 ∧
    ByteBuf.empty.writerIndex = 0 ∧
    ByteBuf.empty.isWriteable 1 = false ∧
    ∀ s : List (Fin 256),
      (ByteBuf.fromBytes s).getCapacity = s.length ∧
      (ByteBuf.fromBytes s).readerIndex = 0 ∧
      (ByteBuf.fromBytes s).writerIndex = s.length ∧
      (ByteBuf.fromBytes s).isReadable s.length = true ∧
      (ByteBuf.fromBytes s).isReadable (s.length + 1) = false := by
  refine ⟨by decide, by decide, by decide, by decide, by decide, ?_⟩
  intro s
  refine ⟨rfl, rfl, rfl, ?_, ?_⟩
  · simp [ByteBuf.fromBytes, ByteBuf.isReadable, ByteBuf.readableBytes]
  · simp [ByteBuf.fromBytes, ByteBuf.isReadable, ByteBuf.readableBytes]

/-- C7: `setCapacity n` always succeeds with capacity exactly `n`; afterwards
`isWriteable k` (for positive `k`) holds iff `k ≤ n - writerIndex`; the
cursors are clamped so `readerIndex ≤ writerIndex ≤ n` still holds; and when
growing from an invariant-satisfying state the cursors are unchanged and the
new bytes are zero-initialized. -/
theorem spec_c7_setCapacity (b : ByteBuf) (n : Nat) :
    (b.setCapacity n).1 = .ok () ∧
    (b.setCapacity n).2.getCapacity = n ∧
    (∀ k, 0 < k →
      ((b.setCapacity n).2.isWriteable k = true ↔
        k ≤ n - (b.setCapacity n).2.writerIndex)) ∧
    (b.setCapacity n).2.readerIndex ≤ (b.setCapacity n).2.writerIndex ∧
    (b.setCapacity n).2.writerIndex ≤ n ∧
    (b.getCapacity ≤ n → b.Inv →
      (b.setCapacity n).2.readerIndex = b.readerIndex ∧
      (b.setCapacity n).2.writerIndex = b.writerIndex ∧
      (b.setCapacity n).2.storage =
        b.storage ++ List.replicate (n - b.getCapacity) (0 : Fin 256)) := by
  have hcap : (b.setCapacity n).2.getCapacity = n := by
    simp only [ByteBuf.setCapacity, ByteBuf.getCapacity, List.length_append,
      List.length_take, List.length_replicate]
    omega
  refine ⟨rfl, hcap, ?_, ?_, ?_, ?_⟩
  · intro k hk
    simp only [ByteBuf.isWriteable, ByteBuf.writableBytes, hcap,
      decide_eq_true_eq]
  · simp only [ByteBuf.setCapacity]
    omega
  · simp only [ByteBuf.setCapacity]
    omega
  · intro hle hinv
    obtain ⟨h1, h2⟩ := hinv
    rw [ByteBuf.getCapacity] at h2 hle
    refine ⟨?_, ?_, ?_⟩
    · simp only [ByteBuf.setCapacity]
      omega
    · simp only [ByteBuf.setCapacity]
      omega
    · simp only [ByteBuf.setCapacity, ByteBuf.getCapacity,
        List.take_of_length_le hle]

/-- C7 witness: the capacity theorem applied to growing the empty buffer to
two bytes. -/
theorem spec_c7_setCapacity_witness :
    (0 : Nat) < 1 ∧
    ((ByteBuf.empty.setCapacity 2).2.isWriteable 1 = true ↔
      1 ≤ 2 - (ByteBuf.empty.setCapacity 2).2.writerIndex) :=
  ⟨by decide, (spec_c7_setCapacity ByteBuf.empty 2).2.2.1 1 (by decide)⟩

/-- C8: with at least one readable byte whose raw value is `raw`,
`readBoolean` consumes exactly that byte, advances `readerIndex` by 1, and
returns `true` iff `raw` is nonzero (any nonzero value, not only 1). -/
theorem spec_c8_readBoolean (b : ByteBuf) (raw : Fin 256)
    (h1 : 1 ≤ b.readableBytes) (h2 : b.storage[b.readerIndex]? = some raw) :
    b.readBoolean =
      (.ok (decide (raw.val ≠ 0)), { b with readerIndex := b.readerIndex + 1 }) := by
  simp only [ByteBuf.readBoolean]
  rw [if_neg (by omega), h2]

/-- C8 witness: the boolean-interpretation theorem applied to the one-byte
buffer holding `0x7f`, which decodes to `true`. -/
theorem spec_c8_readBoolean_witness :
    (ByteBuf.fromBytes [(0x7f : Fin 256)]).readBoolean =
      (.ok (decide ((0x7f : Fin 256).val ≠ 0)),
       { ByteBuf.fromBytes [(0x7f : Fin 256)] with readerIndex := 0 + 1 }) :=
  spec_c8_readBoolean (ByteBuf.fromBytes [(0x7f : Fin 256)]) 0x7f
    (by decide) (by decide)

/-- The two's complement single-byte encoding round-trips with the signed
reinterpretation on the full representable range -128..127. -/
theorem toSigned8_byteOfInt (v : Int) (h1 : -128 ≤ v) (h2 : v ≤ 127) :
    toSigned8 (byteOfInt v) = v := by
  simp only [toSigned8, byteOfInt]
  split <;> omega

/-- C9: write/read round-trip — for every signed value `v` in the full
representable byte range -128..127 and every buffer with a writable byte,
`writeByte v` succeeds, and reading with `readByte` from the position it was
written (after repositioning the read cursor there) returns exactly `v`. -/
theorem spec_c9_roundtrip (b : ByteBuf) (v : Int)
    (h1 : -128 ≤ v) (h2 : v ≤ 127) (h3 : b.writerIndex < b.getCapacity) :
    (b.writeByte v).1 = .ok () ∧
    ((b.writeByte v).2.setReaderIndex b.writerIndex).1 = .ok () ∧
    ((b.writeByte v).2.setReaderIndex b.writerIndex).2.readByte.1 = .ok v := by
  obtain ⟨st, r, w⟩ := b
  simp only [ByteBuf.getCapacity] at h3
  have hw : ¬ (ByteBuf.mk st r w).writableBytes < 1 := by
    simp only [ByteBuf.writableBytes, ByteBuf.getCapacity]
    omega
  have hset : (st.set w (byteOfInt v))[w]? = some (byteOfInt v) :=
    List.getElem?_set_eq_of_lt (byteOfInt v) (by simpa using h3)
  refine ⟨?_, ?_, ?_⟩
  · simp only [ByteBuf.writeByte, if_neg hw]
  · simp only [ByteBuf.writeByte, if_neg hw, ByteBuf.setReaderIndex]
    rw [if_neg (by omega)]
  · simp only [ByteBuf.writeByte, if_neg hw, ByteBuf.setReaderIndex]
    rw [if_neg (by omega)]
    simp only [ByteBuf.readByte, ByteBuf.readableBytes]
    rw [if_neg (by omega)]
    rw [hset]
    simp [toSigned8_byteOfInt v h1 h2]

/-- C9 witness: the round-trip theorem applied to writing -1 into a one-byte
buffer obtained by growing the empty buffer. -/
theorem spec_c9_roundtrip_witness :
    ((ByteBuf.empty.setCapacity 1).2.writeByte (-1)).1 = .ok () ∧
    (((ByteBuf.empty.setCapacity 1).2.writeByte (-1)).2.setReaderIndex
      (ByteBuf.empty.setCapacity 1).2.writerIndex).1 = .ok () ∧
    (((ByteBuf.empty.setCapacity 1).2.writeByte (-1)).2.setReaderIndex
      (ByteBuf.empty.setCapacity 1).2.writerIndex).2.readByte.1 = .ok (-1) :=
  spec_c9_roundtrip (ByteBuf.empty.setCapacity 1).2 (-1)
    (by decide) (by decide) (by decide)

/-- C10: every InvalidArgument failure raised by `setReaderIndex`,
`setWriterIndex` or `setIndex` carries the machine-readable error code
`InvalidArg` (the exact string observed by the test suite, not the spec's
kind name `InvalidArgument`). -/
theorem spec_c10_invalidArg_code (b : ByteBuf) (i r w : Nat) :
    BufError.invalidArg.code = some "InvalidArg" ∧
    (i > b.writerIndex →
      (b.setReaderIndex i).1 = .error BufError.invalidArg ∧
      ((b.setReaderIndex i).1 = .error BufError.invalidArg →
        BufError.invalidArg.code = some "InvalidArg")) ∧
    (i > b.getCapacity ∨ i < b.readerIndex →
      (b.setWriterIndex i).1 = .error BufError.invalidArg) ∧
    (r > w ∨ w > b.getCapacity →
      (b.setIndex r w).1 = .error BufError.invalidArg) := by
  refine ⟨rfl, ?_, ?_, ?_⟩
  · intro h
    refine ⟨?_, fun _ => rfl⟩
    simp [ByteBuf.setReaderIndex, h]
  · intro h
    simp [ByteBuf.setWriterIndex, h]
  · intro h
    simp [ByteBuf.setIndex, h]

/-- C10 witness: the error-code theorem applied to an out-of-range
`setReaderIndex` on the empty buffer. -/
theorem spec_c10_invalidArg_code_witness :
    (ByteBuf.empty.setReaderIndex 1).1 = .error BufError.invalidArg ∧
    BufError.invalidArg.code = some "InvalidArg" :=
  ⟨((spec_c10_invalidArg_code ByteBuf.empty 1 0 0).2.1 (by decide)).1,
   (spec_c10_invalidArg_code ByteBuf.empty 1 0 0).1⟩
